import Mathlib

/-!
Verification development for `src/stores/eth/contracts.js` of pools.piedao.org:
the contract-handle cache, the call-interception/override mechanism, the
block-driven refresh scheduler and the key addressing scheme.

The JavaScript module is shallowly embedded: plain JS values that occur as
contract-call arguments and override objects become the inductive `JsVal`;
the module-level mutable globals (`contracts`, `trackedBalances`,
`trackedFunctions`, `blockNumberPid`) become the fields of `EthState`, with
every operation passing the state explicitly; code that throws returns
`Except JsError`.  Helpers that the module imports from elsewhere in the
repository or from libraries (`isAddress`, `balanceKey`, `functionKey`,
the `erc20` abi) are not under `src/` and are modelled from the spec, each
marked as such in its doc comment.
-/

/-- A primitive JS value (the leaves of override objects used by the module:
gas parameters are numbers or strings). -/
inductive Prim where
  | str : String → Prim
  | num : Int → Prim
deriving DecidableEq, Repr

/-- A plain JS object (POJO), as an association list of fields in insertion
order. -/
abbrev ObjV := List (String × Prim)

/-- A JS value as it appears in a positional argument list of a contract
call: a primitive, a plain object, or `undefined` (JS array holes). -/
inductive JsVal where
  | prim : Prim → JsVal
  | obj : ObjV → JsVal
  | undef : JsVal
deriving DecidableEq, Repr

/-- JS property lookup `m[k]` on a string-keyed object. -/
def alookup {β : Type} (l : List (String × β)) (k : String) : Option β :=
  (l.find? (fun p => p.1 == k)).map (fun p => p.2)

/-- JS object spread `\x7b ...a, ...b \x7d`: the keys of `a` (values
overridden by `b` where both are present) followed by the keys of `b` that
`a` lacks. -/
def mergeObj (a b : ObjV) : ObjV :=
  (a.map (fun p => match alookup b p.1 with
    | some v => (p.1, v)
    | none => p))
  ++ b.filter (fun p => (alookup a p.1).isNone)

/-- `String.prototype.toLowerCase` on ASCII (addresses are ASCII hex). -/
def lowerChar (ch : Char) : Char :=
  if 'A' ≤ ch ∧ ch ≤ 'Z' then Char.ofNat (ch.toNat + 32) else ch

/-- Lower-casing of a whole string, used by the override-registry lookup
(`address.toLowerCase()`). -/
def lowerStr (s : String) : String := String.mk (s.data.map lowerChar)

/-- Hexadecimal digit test for address validation. -/
def isHexChar (ch : Char) : Bool :=
  ch.isDigit || decide ('a' ≤ ch ∧ ch ≤ 'f') || decide ('A' ≤ ch ∧ ch ≤ 'F')

/-- Modelled from the spec: `isAddress` from `@pie-dao/utils` (not under
`src/`), the address-format validation used by every address-accepting
entry point — a `0x`-prefixed 20-byte hex string. -/
def isAddress (s : String) : Bool :=
  match s.data with
  | '0' :: 'x' :: rest => rest.length == 40 && rest.all isHexChar
  | _ => false

/-- Splitting helper for `key.split(".")`, recursing over the characters. -/
def splitDotAux : List Char → List Char → List (List Char)
  | cur, [] => [cur.reverse]
  | cur, c :: rest =>
    if c == '.' then cur.reverse :: splitDotAux [] rest
    else splitDotAux (c :: cur) rest

/-- JS `key.split(".")`: always returns at least one component. -/
def splitDot (s : String) : List String :=
  (splitDotAux [] s.data).map (fun l => String.mk l)

/-- One entry of `contract.interface.fragments`: a declared function and
its declared parameter count (`definition.inputs.length`). -/
structure Fragment where
  name : String
  inputsLen : Nat
deriving DecidableEq, Repr

/-- An ABI is its list of function fragments. -/
abbrev Abi := List Fragment

/-- The raw ethers contract binding: its address and its interface
fragments.  The provider/signer the binding was constructed against does
not affect any behaviour modelled here, so it is not recorded. -/
structure RawContract where
  address : String
  fragments : List Fragment
deriving DecidableEq, Repr

/-- Modelled from the spec: the standard-token fallback ABI `erc20` from
`@pie-dao/abis` (not under `src/`). -/
def erc20 : Abi :=
  [⟨"name", 0⟩, ⟨"symbol", 0⟩, ⟨"decimals", 0⟩, ⟨"totalSupply", 0⟩,
   ⟨"balanceOf", 1⟩, ⟨"transfer", 2⟩, ⟨"approve", 2⟩, ⟨"allowance", 2⟩,
   ⟨"transferFrom", 3⟩]

/-- The static `contractOverrides.json` table: lower-cased address →
function name → partial parameter object. -/
abbrev OverrideConfig := List (String × List (String × ObjV))

/-- `getOverrides(functionName, contract)` (contracts.js lines 119–122):
look the contract's lower-cased address up in the static table, then the
function name; `undefined` when either lookup misses. -/
def getOverrides (cfg : OverrideConfig) (functionName : String)
    (c : RawContract) : Option ObjV :=
  match alookup cfg (lowerStr c.address) with
  | some m => alookup m functionName
  | none => none

/-- `hasOverrides(functionName, contract)` (lines 124–127): truthiness of
the registered override object. -/
def hasOverrides (cfg : OverrideConfig) (functionName : String)
    (c : RawContract) : Bool :=
  (getOverrides cfg functionName c).isSome

/-- The exceptions the module can raise. -/
inductive JsError where
  | invalidAddress : String → JsError
  | unknownFunction : String → String → JsError
  | argumentCount : String → Nat → Nat → JsError
  | typeError : String → JsError
deriving DecidableEq, Repr

/-- `expectedArgLength(functionName, contract)` (lines 63–73): the declared
parameter count of the named fragment; throws when the interface does not
declare the function. -/
def expectedArgLength (functionName : String) (c : RawContract) :
    Except JsError Nat :=
  match c.fragments.find? (fun f => f.name == functionName) with
  | none => Except.error (JsError.unknownFunction functionName c.address)
  | some f => Except.ok f.inputsLen

/-- One invocation of the underlying binding: which binding was called,
the function name, and the positional arguments it received. -/
structure Call where
  target : RawContract
  fname : String
  args : List JsVal
deriving DecidableEq, Repr

/-- JS array element assignment `args[i] = v`: in-range assignment
replaces, out-of-range assignment extends with `undefined` holes. -/
def setAt (l : List JsVal) (i : Nat) (v : JsVal) : List JsVal :=
  if i < l.length then l.set i v
  else l ++ List.replicate (i - l.length) JsVal.undef ++ [v]

/-- `overrideWrapped(prop, contract)` (lines 129–147).  Note the source's
guard is `position < args.length` — it fires when MORE arguments than the
declared count were passed, although its message reads "called with too
few arguments" (and references an unbound `address`); the thrown error is
modelled as `argumentCount prop got expected`.  When the guard does not
fire, the argument slot at the declared count is overwritten: merged with
the registered overrides when it is a POJO, else set to the registered
overrides verbatim, and the underlying `contract[prop]` is invoked. -/
def overrideWrapped (cfg : OverrideConfig) (prop : String) (c : RawContract)
    (passedArgs : List JsVal) : Except JsError Call :=
  match expectedArgLength prop c with
  | Except.error e => Except.error e
  | Except.ok position =>
    if position < passedArgs.length then
      Except.error (JsError.argumentCount prop passedArgs.length position)
    else
      let reg : ObjV := (getOverrides cfg prop c).getD []
      match passedArgs.get? position with
      | some (JsVal.obj o) =>
        Except.ok ⟨c, prop, setAt passedArgs position (JsVal.obj (mergeObj reg o))⟩
      | _ =>
        Except.ok ⟨c, prop, setAt passedArgs position (JsVal.obj reg)⟩

/-- A concrete valid address used in concrete evaluations. -/
def addrA : String := "0x00000000000000000000000000000000000000a1"

/-- A second concrete valid address. -/
def addrB : String := "0x00000000000000000000000000000000000000b2"

/-- A concrete override table: address `addrA` registers gas defaults for
functions `foo` and `bar`. -/
def cfgEx : OverrideConfig :=
  [(addrA, [("foo", [("gasLimit", Prim.num 5)]),
            ("bar", [("gasPrice", Prim.num 2)])])]

/-- A concrete binding at `addrA` declaring `foo` with two parameters. -/
def cFoo : RawContract := ⟨addrA, [⟨"foo", 2⟩]⟩

/-- A concrete binding at `addrA` declaring `bar` with one parameter. -/
def cBar : RawContract := ⟨addrA, [⟨"bar", 1⟩]⟩

/-- C1.  The claim says a call through the override wrapper with fewer than
the declared `n` positional arguments raises `ArgumentCountError` and
performs no underlying call.  Evaluating the code at the failing input —
`foo` declared with 2 inputs, invoked with the single argument `1` — shows
the wrapper raises nothing and performs the underlying call
`foo(1, undefined, registeredOverrides)`: the source's guard
`position < args.length` is reversed relative to its own "called with too
few arguments" message. -/
theorem overrideWrapped_too_few_args_executes_call :
    overrideWrapped cfgEx "foo" cFoo [JsVal.prim (Prim.num 1)]
      = Except.ok ⟨cFoo, "foo",
          [JsVal.prim (Prim.num 1), JsVal.undef,
           JsVal.obj [("gasLimit", Prim.num 5)]]⟩ := by rfl

/-- C5.  The claim says a call with the declared `n` arguments plus a
trailing plain parameter object reaches the underlying call with the merge
of registered and caller overrides (caller winning) at position `n`.
Evaluating the code at the failing input — `bar` declared with 1 input,
invoked as `bar(7, \x7b gasPrice: 9 \x7d)` — shows the wrapper instead
throws its (mislabelled) arity error, because the trailing object makes
`args.length` exceed `position`; the POJO-merge branch is unreachable. -/
theorem overrideWrapped_trailing_object_throws :
    overrideWrapped cfgEx "bar" cBar
        [JsVal.prim (Prim.num 7), JsVal.obj [("gasPrice", Prim.num 9)]]
      = Except.error (JsError.argumentCount "bar" 2 1) := by rfl

/-- Type-disambiguating rendering of a primitive for key derivation. -/
def encodePrim : Prim → String
  | Prim.str s => "s:" ++ s
  | Prim.num n => "n:" ++ toString n

/-- Rendering of a plain object for key derivation. -/
def encodeObjV (o : ObjV) : String :=
  String.intercalate "," (o.map (fun p => p.1 ++ "=" ++ encodePrim p.2))

/-- Rendering of one argument for key derivation. -/
def encodeJsVal : JsVal → String
  | JsVal.prim p => encodePrim p
  | JsVal.obj o => "\x7b" ++ encodeObjV o ++ "\x7d"
  | JsVal.undef => "undefined"

/-- Modelled from the spec: `balanceKey` from `./keys` (not under `src/`) —
a deterministic, invertible identifier; the scheduler's own warning gives
its shape, `[token address].[wallet address]`. -/
def balanceKey (token account : String) : String := token ++ "." ++ account

/-- Modelled from the spec: `functionKey` from `./keys` (not under `src/`)
— a deterministic identifier unique per distinct
(address, functionName, args, overrides) tuple, with order-preserving and
type-disambiguating argument serialization. -/
def functionKey (address functionName : String) (args : List JsVal)
    (overrides : ObjV) : String :=
  address ++ "." ++ functionName ++ "("
    ++ String.intercalate "," (args.map encodeJsVal) ++ ")."
    ++ encodeObjV overrides

/-- A cached, function-table-augmented handle to one contract address: the
proxy that `observableContract` returns.  `id` renders JS object identity
(two handles are the same instance exactly when construction assigned them
the same id); `explicitAbi` records whether an explicit abi was supplied. -/
structure Handle where
  id : Nat
  address : String
  explicitAbi : Bool
  raw : RawContract
deriving DecidableEq, Repr

/-- One entry of `trackedFunctions` (lines 101–106): the stored call
parameters for a standing subscription.  The stored `rawFunction` is
identified by its function name on the stored address. -/
structure TrackedFn where
  contractAddress : String
  functionName : String
  args : List JsVal
  overrides : ObjV
deriving DecidableEq, Repr

/-- The module-level mutable globals of contracts.js plus the timer/refresh
bookkeeping of the block scheduler: `contracts` (line 13),
`trackedBalances` (line 15), `trackedFunctions` (line 16), and
`blockNumberPid` (line 18) split into its target block (`blockTarget`) and
its pending timer handle (`blockTimer`).  `nextId`/`nextTimer` supply
fresh handle and timer identities; `cancelledTimers` records every
`clearTimeout`, `firedTimers` every timer expiry (= one refresh cycle). -/
structure EthState where
  contracts : List (String × Handle)
  trackedBalances : List String
  trackedFunctions : List (String × TrackedFn)
  nextId : Nat
  blockTarget : Nat
  blockTimer : Option Nat
  nextTimer : Nat
  cancelledTimers : List Nat
  firedTimers : List Nat
deriving DecidableEq, Repr

/-- The initial state: empty maps and `blockNumberPid = [0]`. -/
def s0 : EthState := ⟨[], [], [], 0, 0, none, 0, [], []⟩

/-- `observableContract({ abi, address })` (lines 149–212).  `env` is the
external `findAbi` service (`none` = the lookup rejected, in which case the
code logs and falls back to `erc20`).  Validates the address; returns the
cached handle on a hit with no explicit abi; otherwise resolves the abi,
binds a fresh raw contract (the signer/provider choice does not change the
modelled binding), assigns a fresh handle identity, and caches the handle
exactly when no explicit abi was supplied. -/
def observableContract (env : String → Option Abi) (abi : Option Abi)
    (address : String) (s : EthState) : Except JsError (Handle × EthState) :=
  if isAddress address then
    match abi with
    | none =>
      match alookup s.contracts address with
      | some hdl => Except.ok (hdl, s)
      | none =>
        let hdl : Handle :=
          ⟨s.nextId, address, false, ⟨address, (env address).getD erc20⟩⟩
        Except.ok (hdl,
          { s with nextId := s.nextId + 1,
                   contracts := (address, hdl) ::
                     s.contracts.filter (fun p => p.1 != address) })
    | some givenAbi =>
      let hdl : Handle := ⟨s.nextId, address, true, ⟨address, givenAbi⟩⟩
      Except.ok (hdl, { s with nextId := s.nextId + 1 })
  else
    Except.error (JsError.invalidAddress address)

/-- `resetContractCache()` (lines 214–216): `contracts = \x7b\x7d`. -/
def resetContractCache (s : EthState) : EthState := { s with contracts := [] }

/-- The direct-call path of `generateTrackableFunction` (lines 88–91): the
wrapper fetches `contracts[contractAddress].raw` — the raw binding of the
handle currently in the shared cache, not the binding the wrapper was
built from — and invokes `rawFunction` bound to it with the arguments
unchanged.  When the cache has no entry for the address, reading `.raw` of
`undefined` throws before any call is made. -/
def trackableCall (s : EthState) (contractAddress functionName : String)
    (args : List JsVal) : Except JsError Call :=
  match alookup s.contracts contractAddress with
  | none => Except.error (JsError.typeError
      ("Cannot read properties of undefined (reading raw) for " ++ contractAddress))
  | some hdl => Except.ok ⟨hdl.raw, functionName, args⟩

/-- The outcome of `trackable.track(callerOverrides)` (lines 93–113): the
subscription key it uses throughout, the entry stored into
`trackedFunctions`, the immediate call it fires, and the updated
`trackedFunctions` table.  The same `key` is the one registered, the one
published to via `subject(key).next`, and the one whose stream is
returned. -/
structure TrackResult where
  key : String
  stored : TrackedFn
  immediateCall : Call
  newTrackedFunctions : List (String × TrackedFn)
deriving DecidableEq, Repr

/-- `trackable.track(callerOverrides)` (lines 93–113), with `c` the binding
resolved from the cache at wrapper-call time.  Mirrors the source order:
the key is computed from `overrides = callerOverrides` BEFORE the
registered rule is merged in; the merged overrides are then stored and
appended to the immediate call. -/
def trackBody (cfg : OverrideConfig) (tf : List (String × TrackedFn))
    (contractAddress functionName : String) (c : RawContract)
    (args : List JsVal) (callerOverrides : ObjV) : TrackResult :=
  let overrides0 := callerOverrides
  let key := functionKey contractAddress functionName args overrides0
  let overrides :=
    if hasOverrides cfg functionName c then
      mergeObj ((getOverrides cfg functionName c).getD []) callerOverrides
    else overrides0
  let entry : TrackedFn := ⟨contractAddress, functionName, args, overrides⟩
  { key := key
    stored := entry
    immediateCall := ⟨c, functionName, args ++ [JsVal.obj overrides]⟩
    newTrackedFunctions := (key, entry) :: tf.filter (fun p => p.1 != key) }

/-- What a property access on the handle proxy yields. -/
inductive GetResult where
  | addonRaw : RawContract → GetResult
  | addonTrackBalance : GetResult
  | addonFunctions : GetResult
  | wrapped : String → GetResult
  | rawMember : String → GetResult
  | targetMember : GetResult
deriving DecidableEq, Repr

/-- Truthiness of `contract[prop]` for the binding's callable surface: the
interface declares a function of that name. -/
def hasMember (c : RawContract) (prop : String) : Bool :=
  (c.fragments.find? (fun f => f.name == prop)).isSome

/-- The proxy's `get` trap (lines 191–203): the addons `raw`,
`trackBalance`, `functions` shadow everything; otherwise a member with a
registered override rule is served as `overrideWrapped`, a member without
one is served unchanged, and anything else falls through to the (empty)
proxy target. -/
def handlerGet (cfg : OverrideConfig) (c : RawContract) (prop : String) :
    GetResult :=
  if prop = "raw" then GetResult.addonRaw c
  else if prop = "trackBalance" then GetResult.addonTrackBalance
  else if prop = "functions" then GetResult.addonFunctions
  else if hasMember c prop && hasOverrides cfg prop c then GetResult.wrapped prop
  else if hasMember c prop then GetResult.rawMember prop
  else GetResult.targetMember

/-- The externally observable effects of one refresh cycle, one action per
tracked entry, each carrying the entry's subscription key. -/
inductive RefreshAction where
  | publishBalance : String → String → String → RefreshAction
  | warnInvalidKey : String → RefreshAction
  | publishFunction : String → Call → RefreshAction
  | entryError : String → RefreshAction
deriving DecidableEq, Repr

/-- The subscription key an action touches. -/
def RefreshAction.keyOf : RefreshAction → String
  | RefreshAction.publishBalance k _ _ => k
  | RefreshAction.warnInvalidKey k => k
  | RefreshAction.publishFunction k _ => k
  | RefreshAction.entryError k => k

/-- Whether a tracked-balance key splits into two valid addresses. -/
def validBalanceParts (key : String) : Bool :=
  match splitDot key with
  | token :: account :: _ => isAddress token && isAddress account
  | _ => false

/-- The balance half of `updateOnBlock` (lines 22–32), per key: split the
key at the dots; when both leading components are valid addresses, resolve
the token's handle with the `erc20` abi and publish the re-read balance to
`subject(key)`; otherwise log the warning and leave the entry alone. -/
def dispatchBalance (env : String → Option Abi) (s : EthState)
    (key : String) : EthState × RefreshAction :=
  match splitDot key with
  | token :: account :: _ =>
    if isAddress token && isAddress account then
      match observableContract env (some erc20) token s with
      | Except.ok (_, s') => (s', RefreshAction.publishBalance key token account)
      | Except.error _ => (s, RefreshAction.entryError key)
    else (s, RefreshAction.warnInvalidKey key)
  | _ => (s, RefreshAction.warnInvalidKey key)

/-- The function half of `updateOnBlock` (lines 34–43), per entry: resolve
the contract handle by stored address (no explicit abi, so the cache is
consulted and repopulated), re-invoke the stored callable with the stored
args and overrides, and publish the results to `subject(key)`.  A failing
entry is isolated (`entryError`), it does not abort the cycle. -/
def dispatchFunction (env : String → Option Abi) (s : EthState)
    (kv : String × TrackedFn) : EthState × RefreshAction :=
  match observableContract env none kv.2.contractAddress s with
  | Except.ok (hdl, s') =>
    (s', RefreshAction.publishFunction kv.1
      ⟨hdl.raw, kv.2.functionName, kv.2.args ++ [JsVal.obj kv.2.overrides]⟩)
  | Except.error _ => (s, RefreshAction.entryError kv.1)

/-- Sequential dispatch of the tracked entries of one refresh cycle,
threading the state and collecting one action per entry. -/
def runDispatch {α : Type} (f : EthState → α → EthState × RefreshAction) :
    EthState → List α → EthState × List RefreshAction
  | s, [] => (s, [])
  | s, x :: rest =>
    let r := f s x
    let rr := runDispatch f r.1 rest
    (rr.1, r.2 :: rr.2)

/-- `updateOnBlock` (lines 20–44): dispatch every tracked balance key, then
every tracked function entry. -/
def updateOnBlock (env : String → Option Abi) (s : EthState) :
    EthState × List RefreshAction :=
  let rb := runDispatch (dispatchBalance env) s s.trackedBalances
  let rf := runDispatch (dispatchFunction env) rb.1 s.trackedFunctions
  (rf.1, rb.2 ++ rf.2)

/-- The block-scheduler events: a `subject("blockNumber")` emission, a
`subject("blockNumberBump")` emission, and the expiry of the pending
500ms debounce timer. -/
inductive BlockEv where
  | advance : Nat → BlockEv
  | bump : Nat → BlockEv
  | expire : BlockEv
deriving DecidableEq, Repr

/-- The two subscriptions (lines 46–61) plus timer expiry.  An advance
re-arms only when `blockNumber > blockNumberPid[0] + 4`; a bump always
re-arms; both `clearTimeout` the pending timer and record the new target.
Expiry of the pending timer runs one refresh cycle (`updateOnBlock`),
recorded in `firedTimers`. -/
def stepBlock : BlockEv → EthState → EthState
  | BlockEv.advance n, s =>
    if s.blockTarget + 4 < n then
      { s with cancelledTimers := s.cancelledTimers ++ s.blockTimer.toList
               blockTarget := n
               blockTimer := some s.nextTimer
               nextTimer := s.nextTimer + 1 }
    else s
  | BlockEv.bump n, s =>
    { s with cancelledTimers := s.cancelledTimers ++ s.blockTimer.toList
             blockTarget := n
             blockTimer := some s.nextTimer
             nextTimer := s.nextTimer + 1 }
  | BlockEv.expire, s =>
    match s.blockTimer with
    | some t => { s with blockTimer := none, firedTimers := s.firedTimers ++ [t] }
    | none => s

/-- Folding a sequence of scheduler events over the state. -/
def runEvents : List BlockEv → EthState → EthState
  | [], s => s
  | e :: rest, s => runEvents rest (stepBlock e s)

/-- The handle that caching `cFoo` without an explicit abi produces. -/
def hdlFoo : Handle := ⟨0, addrA, false, cFoo⟩

/-- A state whose shared cache holds `hdlFoo` at `addrA`. -/
def sCached : EthState := { s0 with contracts := [(addrA, hdlFoo)], nextId := 1 }

/-- C2, counterexample.  Tracking `foo()` on `addrA` with empty caller
overrides, while the registry holds a rule for `(addrA, foo)`: the merged
effective overrides are the registered gas defaults, yet the key the code
registers, publishes to and returns is NOT
`functionKey addrA foo args effectiveOverrides` — the source computes the
key from `callerOverrides` before merging (line 95 vs lines 97–99). -/
theorem track_key_ignores_registered_overrides :
    (trackBody cfgEx [] addrA "foo" cFoo [] []).stored.overrides
        = [("gasLimit", Prim.num 5)] ∧
    (trackBody cfgEx [] addrA "foo" cFoo [] []).key
      ≠ functionKey addrA "foo" [] [("gasLimit", Prim.num 5)] := by
  constructor
  · rfl
  · intro h
    exact absurd h (by decide)

/-- C2, amended.  `track(callerOverrides)` registers, publishes to and
returns the key `functionKey(address, fn, args, callerOverrides)` —
computed from the caller overrides alone, before the registered rule is
merged — while the entry stored under that key and the immediate call both
carry the effective merged overrides (caller values winning). -/
theorem track_key_from_caller_overrides (cfg : OverrideConfig)
    (tf : List (String × TrackedFn)) (ca fn : String) (c : RawContract)
    (args : List JsVal) (co : ObjV) :
    (trackBody cfg tf ca fn c args co).key = functionKey ca fn args co ∧
    alookup (trackBody cfg tf ca fn c args co).newTrackedFunctions
        (trackBody cfg tf ca fn c args co).key
      = some (trackBody cfg tf ca fn c args co).stored ∧
    (trackBody cfg tf ca fn c args co).stored.overrides
      = (if hasOverrides cfg fn c then
           mergeObj ((getOverrides cfg fn c).getD []) co
         else co) ∧
    (trackBody cfg tf ca fn c args co).immediateCall
      = ⟨c, fn, args ++
          [JsVal.obj (trackBody cfg tf ca fn c args co).stored.overrides]⟩ := by
  refine ⟨rfl, ?_, rfl, rfl⟩
  simp [trackBody, alookup]

/-- C4, counterexample.  An override rule exists for `(addrA, foo)`, yet a
call through the handle's `functions` map (`generateTrackableFunction`,
the wrapper every `handle.functions[f]` is built from) invokes the raw
binding with the arguments unchanged — it is not routed through override
injection, whose result on the same input appends the registered
overrides as a trailing argument. -/
theorem functions_path_bypasses_override_injection :
    hasOverrides cfgEx "foo" cFoo = true ∧
    trackableCall sCached addrA "foo"
        [JsVal.prim (Prim.num 1), JsVal.prim (Prim.num 2)]
      = Except.ok ⟨cFoo, "foo",
          [JsVal.prim (Prim.num 1), JsVal.prim (Prim.num 2)]⟩ ∧
    overrideWrapped cfgEx "foo" cFoo
        [JsVal.prim (Prim.num 1), JsVal.prim (Prim.num 2)]
      = Except.ok ⟨cFoo, "foo",
          [JsVal.prim (Prim.num 1), JsVal.prim (Prim.num 2),
           JsVal.obj [("gasLimit", Prim.num 5)]]⟩ :=
  ⟨by decide, by rfl, by rfl⟩

/-- C4, amended.  Override application happens at the proxy
property-access layer: for a member `prop` of the binding that is not one
of the addon names, accessing it on the handle yields the
override-injecting wrapper exactly when a rule is registered, and the raw
member unchanged otherwise; but it is not applied on every call path — a
call through the handle's `functions` map delivers the arguments to the
raw binding unchanged, overrides there being applied only via `.track()`. -/
theorem override_injection_at_property_access (cfg : OverrideConfig)
    (c : RawContract) (prop : String) (s : EthState) (ca fn : String)
    (args : List JsVal) (hdl : Handle)
    (h1 : prop ≠ "raw") (h2 : prop ≠ "trackBalance") (h3 : prop ≠ "functions")
    (h4 : hasMember c prop = true)
    (h5 : alookup s.contracts ca = some hdl) :
    (hasOverrides cfg prop c = true →
       handlerGet cfg c prop = GetResult.wrapped prop) ∧
    (hasOverrides cfg prop c = false →
       handlerGet cfg c prop = GetResult.rawMember prop) ∧
    trackableCall s ca fn args = Except.ok ⟨hdl.raw, fn, args⟩ := by
  refine ⟨?_, ?_, ?_⟩
  · intro hov; simp [handlerGet, h1, h2, h3, h4, hov]
  · intro hov; simp [handlerGet, h1, h2, h3, h4, hov]
  · simp [trackableCall, h5]

/-- Witness for the amended C4 at a concrete input. -/
theorem override_injection_at_property_access_witness :
    handlerGet cfgEx cFoo "foo" = GetResult.wrapped "foo" :=
  (override_injection_at_property_access cfgEx cFoo "foo" sCached addrA "foo"
    [] hdlFoo (by decide) (by decide) (by decide) (by decide)
    (by decide)).1 (by decide)

/-- C3.  With a valid address: asking the cache twice with no explicit abi
returns the identical handle both times (the second call is a pure cache
hit on the first call's result); supplying an explicit abi returns a
freshly constructed handle that is none of the cached ones and leaves the
cache mapping unchanged. -/
theorem observableContract_cache_behaviour (env : String → Option Abi)
    (abi : Abi) (a : String) (s : EthState)
    (ha : isAddress a = true)
    (hids : ∀ p ∈ s.contracts, p.2.id < s.nextId) :
    (∃ hdl s1, observableContract env none a s = Except.ok (hdl, s1) ∧
       observableContract env none a s1 = Except.ok (hdl, s1)) ∧
    (∃ hdl2 s2, observableContract env (some abi) a s = Except.ok (hdl2, s2) ∧
       s2.contracts = s.contracts ∧ ∀ p ∈ s.contracts, p.2 ≠ hdl2) := by
  constructor
  · cases hcache : alookup s.contracts a with
    | some hdl =>
      exact ⟨hdl, s, by simp [observableContract, ha, hcache],
        by simp [observableContract, ha, hcache]⟩
    | none =>
      refine ⟨⟨s.nextId, a, false, ⟨a, (env a).getD erc20⟩⟩,
        { s with nextId := s.nextId + 1,
                 contracts := (a, ⟨s.nextId, a, false, ⟨a, (env a).getD erc20⟩⟩) ::
                   s.contracts.filter (fun p => p.1 != a) }, ?_, ?_⟩
      · simp [observableContract, ha, hcache]
      · simp [observableContract, ha, alookup]
  · refine ⟨⟨s.nextId, a, true, ⟨a, abi⟩⟩, { s with nextId := s.nextId + 1 },
      by simp [observableContract, ha], rfl, ?_⟩
    intro p hp h
    have hlt := hids p hp
    rw [h] at hlt
    exact lt_irrefl _ hlt

/-- Witness for C3 at a concrete input. -/
theorem observableContract_cache_behaviour_witness :
    (∃ hdl s1, observableContract (fun _ => none) none addrA s0
         = Except.ok (hdl, s1) ∧
       observableContract (fun _ => none) none addrA s1
         = Except.ok (hdl, s1)) ∧
    (∃ hdl2 s2, observableContract (fun _ => none) (some erc20) addrA s0
         = Except.ok (hdl2, s2) ∧
       s2.contracts = s0.contracts ∧ ∀ p ∈ s0.contracts, p.2 ≠ hdl2) :=
  observableContract_cache_behaviour (fun _ => none) erc20 addrA s0
    (by decide) (by decide)

/-- C10.  A handle built with an explicit abi for an address absent from
the shared cache: its `functions` wrappers fetch
`contracts[contractAddress].raw` from the shared cache (never their own
binding), the lookup yields `undefined`, and so invoking any member throws
before any underlying call is made. -/
theorem explicit_abi_functions_throw_on_uncached
    (env : String → Option Abi) (abi : Abi) (a : String) (hdl : Handle)
    (s s' : EthState) (fn : String) (args : List JsVal)
    (ha : isAddress a = true)
    (hmiss : alookup s.contracts a = none)
    (hcall : observableContract env (some abi) a s = Except.ok (hdl, s')) :
    trackableCall s' a fn args
      = Except.error (JsError.typeError
          ("Cannot read properties of undefined (reading raw) for " ++ a)) := by
  simp [observableContract, ha] at hcall
  obtain ⟨-, hs⟩ := hcall
  subst hs
  simp [trackableCall, hmiss]

/-- The state left behind by an explicit-abi construction from `s0`. -/
def sAfterExp : EthState := { s0 with nextId := 1 }

/-- Witness for C10 at a concrete input. -/
theorem explicit_abi_functions_throw_on_uncached_witness :
    trackableCall sAfterExp addrA "balanceOf" []
      = Except.error (JsError.typeError
          ("Cannot read properties of undefined (reading raw) for " ++ addrA)) :=
  explicit_abi_functions_throw_on_uncached (fun _ => none) erc20 addrA
    ⟨0, addrA, true, ⟨addrA, erc20⟩⟩ s0 sAfterExp "balanceOf" []
    (by decide) (by decide) (by rfl)

/-- Constructing a handle never touches the tracked sets. -/
theorem observableContract_frame {env : String → Option Abi}
    {abi : Option Abi} {a : String} {s : EthState} {hdl : Handle}
    {s' : EthState}
    (h : observableContract env abi a s = Except.ok (hdl, s')) :
    s'.trackedBalances = s.trackedBalances ∧
    s'.trackedFunctions = s.trackedFunctions := by
  unfold observableContract at h
  split at h
  · split at h
    · split at h
      · simp at h; obtain ⟨-, h2⟩ := h; subst h2; exact ⟨rfl, rfl⟩
      · simp at h; obtain ⟨-, h2⟩ := h; subst h2; exact ⟨rfl, rfl⟩
    · simp at h; obtain ⟨-, h2⟩ := h; subst h2; exact ⟨rfl, rfl⟩
  · simp at h

/-- Dispatching one balance entry never touches the tracked sets. -/
theorem dispatchBalance_frame (env : String → Option Abi) (st : EthState)
    (key : String) :
    ((dispatchBalance env st key).1).trackedBalances = st.trackedBalances ∧
    ((dispatchBalance env st key).1).trackedFunctions = st.trackedFunctions := by
  unfold dispatchBalance
  split
  · split
    · split
      · next hoc => exact observableContract_frame hoc
      · exact ⟨rfl, rfl⟩
    · exact ⟨rfl, rfl⟩
  · exact ⟨rfl, rfl⟩

/-- Dispatching one function entry never touches the tracked sets. -/
theorem dispatchFunction_frame (env : String → Option Abi) (st : EthState)
    (kv : String × TrackedFn) :
    ((dispatchFunction env st kv).1).trackedBalances = st.trackedBalances ∧
    ((dispatchFunction env st kv).1).trackedFunctions = st.trackedFunctions := by
  unfold dispatchFunction
  split
  · next hoc => exact observableContract_frame hoc
  · exact ⟨rfl, rfl⟩

/-- A dispatch fold preserves whatever per-step frame its dispatcher
preserves (here: both tracked sets). -/
theorem runDispatch_frame {α : Type}
    (f : EthState → α → EthState × RefreshAction)
    (hf : ∀ st x, ((f st x).1).trackedBalances = st.trackedBalances ∧
                  ((f st x).1).trackedFunctions = st.trackedFunctions)
    (xs : List α) :
    ∀ s : EthState,
      ((runDispatch f s xs).1).trackedBalances = s.trackedBalances ∧
      ((runDispatch f s xs).1).trackedFunctions = s.trackedFunctions := by
  induction xs with
  | nil => intro s; exact ⟨rfl, rfl⟩
  | cons x rest ih =>
    intro s
    simp only [runDispatch]
    exact ⟨((ih (f s x).1).1).trans (hf s x).1,
           ((ih (f s x).1).2).trans (hf s x).2⟩

/-- A dispatch fold emits exactly one action per entry. -/
theorem runDispatch_length {α : Type}
    (f : EthState → α → EthState × RefreshAction) (xs : List α) :
    ∀ s : EthState, ((runDispatch f s xs).2).length = xs.length := by
  induction xs with
  | nil => intro s; rfl
  | cons x rest ih =>
    intro s
    simp only [runDispatch, List.length_cons]
    rw [ih]

/-- The keys of a dispatch fold's actions are exactly the entries' keys. -/
theorem runDispatch_keyOf {α : Type}
    (f : EthState → α → EthState × RefreshAction) (kf : α → String)
    (hf : ∀ st x, RefreshAction.keyOf (f st x).2 = kf x) (xs : List α) :
    ∀ s : EthState,
      ((runDispatch f s xs).2).map RefreshAction.keyOf = xs.map kf := by
  induction xs with
  | nil => intro s; rfl
  | cons x rest ih =>
    intro s
    simp only [runDispatch, List.map_cons]
    rw [hf s x, ih]

/-- An entry whose dispatch action is state-independent contributes that
action to the fold's output. -/
theorem runDispatch_mem {α : Type}
    (f : EthState → α → EthState × RefreshAction) (x : α)
    (a : RefreshAction) (hf : ∀ st, (f st x).2 = a) (xs : List α) :
    ∀ s : EthState, x ∈ xs → a ∈ (runDispatch f s xs).2 := by
  induction xs with
  | nil => intro s h; cases h
  | cons y rest ih =>
    intro s h
    simp only [runDispatch]
    rcases List.mem_cons.mp h with h1 | h2
    · subst h1
      exact List.mem_cons.mpr (Or.inl (hf s).symm)
    · exact List.mem_cons.mpr (Or.inr (ih (f s y).1 h2))

/-- A balance dispatch always acts on its own key. -/
theorem dispatchBalance_keyOf (env : String → Option Abi) (st : EthState)
    (key : String) :
    RefreshAction.keyOf (dispatchBalance env st key).2 = key := by
  unfold dispatchBalance
  split
  · split
    · split
      · rfl
      · rfl
    · rfl
  · rfl

/-- A function dispatch always acts on its own key. -/
theorem dispatchFunction_keyOf (env : String → Option Abi) (st : EthState)
    (kv : String × TrackedFn) :
    RefreshAction.keyOf (dispatchFunction env st kv).2 = kv.1 := by
  unfold dispatchFunction
  split
  · rfl
  · rfl

/-- A malformed balance key is dispatched as the warning action, leaving
the threaded state untouched, whatever that state is. -/
theorem dispatchBalance_invalid (env : String → Option Abi) (st : EthState)
    (key : String) (h : validBalanceParts key = false) :
    dispatchBalance env st key = (st, RefreshAction.warnInvalidKey key) := by
  unfold validBalanceParts at h
  unfold dispatchBalance
  rcases hsd : splitDot key with - | ⟨token, - | ⟨account, rest⟩⟩ <;> simp_all

/-- One refresh cycle touches every tracked entry, in order: the action
keys are exactly the tracked balance keys followed by the tracked function
keys. -/
theorem updateOnBlock_keys (env : String → Option Abi) (s : EthState) :
    ((updateOnBlock env s).2).map RefreshAction.keyOf
      = s.trackedBalances ++ s.trackedFunctions.map Prod.fst := by
  unfold updateOnBlock
  simp only [List.map_append]
  rw [runDispatch_keyOf (dispatchBalance env) (fun k => k)
        (fun st x => dispatchBalance_keyOf env st x) s.trackedBalances,
      runDispatch_keyOf (dispatchFunction env) Prod.fst
        (fun st x => dispatchFunction_keyOf env st x) s.trackedFunctions,
      List.map_id']

/-- An advance inside the `+4` window is a no-op on the whole state. -/
theorem stepBlock_advance_le (t : EthState) (m : Nat)
    (h : m ≤ t.blockTarget + 4) :
    stepBlock (BlockEv.advance m) t = t := by
  simp only [stepBlock]
  rw [if_neg (by omega)]

/-- A burst of advances all inside the window of the last scheduled target
leaves the state unchanged. -/
theorem runEvents_advance_burst (ns : List Nat) :
    ∀ s : EthState, (∀ m ∈ ns, m ≤ s.blockTarget + 4) →
      runEvents (ns.map BlockEv.advance) s = s := by
  induction ns with
  | nil => intro s _; rfl
  | cons m rest ih =>
    intro s h
    simp only [List.map_cons, runEvents]
    rw [stepBlock_advance_le s m (h m (List.mem_cons_self m rest))]
    exact ih s (fun x hx => h x (List.mem_cons_of_mem m hx))

/-- Scheduler events never touch the tracked sets. -/
theorem stepBlock_tracked (ev : BlockEv) (s : EthState) :
    (stepBlock ev s).trackedBalances = s.trackedBalances ∧
    (stepBlock ev s).trackedFunctions = s.trackedFunctions := by
  cases ev with
  | advance n =>
    simp only [stepBlock]
    split <;> exact ⟨rfl, rfl⟩
  | bump n => exact ⟨rfl, rfl⟩
  | expire =>
    simp only [stepBlock]
    split <;> exact ⟨rfl, rfl⟩

/-- C6.  A new 500ms debounce timer is armed — previous timer cancelled,
`lastTarget` updated — only when the incoming block number exceeds
`lastTarget + 4`: an advance inside the window is a complete no-op, so a
burst of in-window advances arms no timer and produces zero refresh
cycles; a single advance beyond the threshold followed by silence through
the debounce window (timer expiry) produces exactly one refresh cycle,
whose actions touch every currently tracked entry. -/
theorem scheduler_debounce_behaviour (env : String → Option Abi)
    (s : EthState) (n : Nat) (ns : List Nat)
    (hidle : s.blockTimer = none)
    (hburst : ∀ m ∈ ns, m ≤ s.blockTarget + 4)
    (hadv : s.blockTarget + 4 < n) :
    (∀ (t : EthState) (m : Nat), m ≤ t.blockTarget + 4 →
       stepBlock (BlockEv.advance m) t = t) ∧
    runEvents (ns.map BlockEv.advance) s = s ∧
    ((stepBlock (BlockEv.advance n) s).blockTimer = some s.nextTimer ∧
     (stepBlock (BlockEv.advance n) s).blockTarget = n ∧
     (runEvents [BlockEv.advance n, BlockEv.expire] s).firedTimers
       = s.firedTimers ++ [s.nextTimer] ∧
     ((updateOnBlock env (stepBlock (BlockEv.advance n) s)).2).map
         RefreshAction.keyOf
       = s.trackedBalances ++ s.trackedFunctions.map Prod.fst) := by
  refine ⟨stepBlock_advance_le, runEvents_advance_burst ns s hburst, ?_, ?_, ?_, ?_⟩
  · simp only [stepBlock]
    rw [if_pos hadv]
  · simp only [stepBlock]
    rw [if_pos hadv]
  · simp only [runEvents, stepBlock]
    rw [if_pos hadv]
  · rw [updateOnBlock_keys,
        (stepBlock_tracked (BlockEv.advance n) s).1,
        (stepBlock_tracked (BlockEv.advance n) s).2]

/-- A concrete state with two tracked balance keys (one malformed) and one
tracked function entry. -/
def sTrk : EthState :=
  { s0 with trackedBalances := [balanceKey addrA addrB, "bogus"],
            trackedFunctions := [("k1", ⟨addrA, "foo", [], []⟩)] }

/-- Witness for C6 at a concrete input. -/
theorem scheduler_debounce_behaviour_witness :
    (runEvents [BlockEv.advance 10, BlockEv.expire] sTrk).firedTimers
      = sTrk.firedTimers ++ [sTrk.nextTimer] ∧
    ((updateOnBlock (fun _ => none)
        (stepBlock (BlockEv.advance 10) sTrk)).2).map RefreshAction.keyOf
      = sTrk.trackedBalances ++ sTrk.trackedFunctions.map Prod.fst :=
  ⟨(scheduler_debounce_behaviour (fun _ => none) sTrk 10 [1, 2, 3] rfl
      (by decide) (by decide)).2.2.2.2.1,
   (scheduler_debounce_behaviour (fun _ => none) sTrk 10 [1, 2, 3] rfl
      (by decide) (by decide)).2.2.2.2.2⟩

/-- C7.  A bump event, in every state and regardless of the `+4`
threshold, cancels the pending debounce timer (when one exists), arms a
fresh 500ms timer and updates `lastTarget` to the bump's block number; and
whatever event fires a timer, the timer fired is exactly the one currently
armed — only the latest-armed timer ever fires. -/
theorem scheduler_bump_behaviour (s : EthState) (n : Nat) :
    ((stepBlock (BlockEv.bump n) s).blockTarget = n ∧
     (stepBlock (BlockEv.bump n) s).blockTimer = some s.nextTimer ∧
     (stepBlock (BlockEv.bump n) s).nextTimer = s.nextTimer + 1 ∧
     (stepBlock (BlockEv.bump n) s).cancelledTimers
       = s.cancelledTimers ++ s.blockTimer.toList) ∧
    (∀ (ev : BlockEv) (t : Nat),
       (stepBlock ev s).firedTimers = s.firedTimers ++ [t] →
       s.blockTimer = some t) := by
  refine ⟨⟨rfl, rfl, rfl, rfl⟩, ?_⟩
  intro ev t h
  cases ev with
  | advance m =>
    simp only [stepBlock] at h
    split at h <;> exact absurd (congrArg List.length h) (by simp)
  | bump m =>
    exact absurd (congrArg List.length h) (by simp [stepBlock])
  | expire =>
    simp only [stepBlock] at h
    cases hb : s.blockTimer with
    | none =>
      rw [hb] at h
      exact absurd (congrArg List.length h) (by simp)
    | some u =>
      rw [hb] at h
      simp only [List.append_cancel_left_eq, List.cons.injEq, and_true] at h
      rw [h]

/-- A concrete state with a pending debounce timer. -/
def sArm : EthState := { s0 with blockTimer := some 5, nextTimer := 6 }

/-- Witness for C7 at a concrete input. -/
theorem scheduler_bump_behaviour_witness :
    (stepBlock (BlockEv.bump 7) sArm).blockTimer = some sArm.nextTimer ∧
    sArm.blockTimer = some 5 :=
  ⟨(scheduler_bump_behaviour sArm 7).1.2.1,
   (scheduler_bump_behaviour sArm 7).2 BlockEv.expire 5 (by rfl)⟩

/-- C8.  During a refresh cycle, a tracked-balance key whose split
components are not both valid addresses is dispatched as a warning: the
cycle does not throw (it still returns one action per tracked entry), the
entry is not removed from the tracked set (both tracked sets are
unchanged), and every remaining entry is still dispatched. -/
theorem refresh_skips_malformed_balance_key (env : String → Option Abi)
    (s : EthState) (key : String)
    (hmem : key ∈ s.trackedBalances)
    (hbad : validBalanceParts key = false) :
    RefreshAction.warnInvalidKey key ∈ (updateOnBlock env s).2 ∧
    ((updateOnBlock env s).1).trackedBalances = s.trackedBalances ∧
    ((updateOnBlock env s).1).trackedFunctions = s.trackedFunctions ∧
    ((updateOnBlock env s).2).length
      = s.trackedBalances.length + s.trackedFunctions.length := by
  have hbalFrame := runDispatch_frame (dispatchBalance env)
    (dispatchBalance_frame env) s.trackedBalances s
  have hfnFrame := runDispatch_frame (dispatchFunction env)
    (dispatchFunction_frame env) s.trackedFunctions
    (runDispatch (dispatchBalance env) s s.trackedBalances).1
  refine ⟨?_, ?_, ?_, ?_⟩
  · exact List.mem_append_left _
      (runDispatch_mem (dispatchBalance env) key
        (RefreshAction.warnInvalidKey key)
        (fun st => by rw [dispatchBalance_invalid env st key hbad])
        s.trackedBalances s hmem)
  · exact hfnFrame.1.trans hbalFrame.1
  · exact hfnFrame.2.trans hbalFrame.2
  · simp only [updateOnBlock, List.length_append]
    rw [runDispatch_length, runDispatch_length]

/-- Witness for C8 at a concrete input. -/
theorem refresh_skips_malformed_balance_key_witness :
    RefreshAction.warnInvalidKey "bogus"
      ∈ (updateOnBlock (fun _ => none) sTrk).2 ∧
    ((updateOnBlock (fun _ => none) sTrk).1).trackedBalances
      = sTrk.trackedBalances :=
  ⟨(refresh_skips_malformed_balance_key (fun _ => none) sTrk "bogus"
      (by decide) (by decide)).1,
   (refresh_skips_malformed_balance_key (fun _ => none) sTrk "bogus"
      (by decide) (by decide)).2.1⟩

/-- C9.  `resetContractCache` empties the address-to-handle mapping and
changes nothing else: the tracked-balances set, the tracked-functions
table, the handle-identity counter and all scheduler state are untouched;
and any tracked function entry with a valid address still re-resolves a
handle lazily on the next refresh dispatch, publishing to its key. -/
theorem resetContractCache_frame (env : String → Option Abi)
    (s : EthState) :
    (resetContractCache s).contracts = [] ∧
    (resetContractCache s).trackedBalances = s.trackedBalances ∧
    (resetContractCache s).trackedFunctions = s.trackedFunctions ∧
    (resetContractCache s).nextId = s.nextId ∧
    (resetContractCache s).blockTarget = s.blockTarget ∧
    (resetContractCache s).blockTimer = s.blockTimer ∧
    (resetContractCache s).nextTimer = s.nextTimer ∧
    (resetContractCache s).cancelledTimers = s.cancelledTimers ∧
    (resetContractCache s).firedTimers = s.firedTimers ∧
    (∀ kv ∈ s.trackedFunctions,
       isAddress kv.2.contractAddress = true →
       ∃ call, (dispatchFunction env (resetContractCache s) kv).2
         = RefreshAction.publishFunction kv.1 call) := by
  refine ⟨rfl, rfl, rfl, rfl, rfl, rfl, rfl, rfl, rfl, ?_⟩
  intro kv _ hval
  refine ⟨⟨⟨kv.2.contractAddress, (env kv.2.contractAddress).getD erc20⟩,
    kv.2.functionName, kv.2.args ++ [JsVal.obj kv.2.overrides]⟩, ?_⟩
  simp [dispatchFunction, observableContract, resetContractCache, alookup,
    hval]

/-- Witness for C9 at a concrete input. -/
theorem resetContractCache_frame_witness :
    ∃ call, (dispatchFunction (fun _ => none) (resetContractCache sTrk)
        ("k1", ⟨addrA, "foo", [], []⟩)).2
      = RefreshAction.publishFunction "k1" call :=
  (resetContractCache_frame (fun _ => none)
      sTrk).2.2.2.2.2.2.2.2.2 ("k1", ⟨addrA, "foo", [], []⟩)
    (by decide) (by decide)
